import Mathlib

/-!
Verification development for the nelfe (Node-Express Library Front End)
repository.  The definitions below are shallow embeddings of the JavaScript
sources: `parse` embeds the librarian's scan entry point (librarian.js, the
fuller revision), `prepare` and the cron callback embed main.js, the settings
switch embeds db.getSettings (db.js), and `comparePassword`/`authenticate`
embed the user-authentication path of db.js.  Machine behaviour that the
JavaScript runtime supplies (string truthiness, method dispatch on plain
strings, switch fall-through) is modelled explicitly where the sources rely
on it.
-/

namespace Nelfe

/-- Runtime errors the embedded JavaScript can raise.  The only one the
sources actually hit is `TypeError` (calling a method that does not exist). -/
inductive JsError
  | typeError
deriving DecidableEq

/-- JS semantics of `fs.promises.readdir(dir)` without `withFileTypes`: the
entries are plain name strings.  A plain string has no `isDirectory` method,
so the call `file.isDirectory()` (librarian.js, inside the root-contents
`forEach` and again inside the media-directory `forEach`) throws a
`TypeError` for every entry. -/
def jsIsDirectory (_file : String) : Except JsError Bool :=
  Except.error JsError.typeError

/-- JS truthiness of a possibly-undefined environment/string value:
`undefined` and the empty string are falsy, any other string is truthy. -/
def jsTruthy : Option String → Bool
  | none => false
  | some s => !(s == "")

/-- JS `toUpperCase()` for the ASCII identifiers the sources upper-case. -/
def jsToUpper (s : String) : String := String.mk (s.data.map Char.toUpper)

/-- JS `toLowerCase()` for the ASCII names the sources lower-case. -/
def jsToLower (s : String) : String := String.mk (s.data.map Char.toLower)

/-- The valid log levels recognised by `db.log` (db.js). -/
def logLevels : List String := ["DEBUG", "INFO", "WARNING", "ERROR"]

/-- Level normalisation performed by `db.log` (db.js): a missing or falsy
level defaults to INFO, an unknown level falls back to INFO, otherwise the
upper-cased level is stored. -/
def dbLogLevel : Option String → String
  | none => "INFO"
  | some level =>
      if level == "" then "INFO"
      else if logLevels.contains (jsToUpper level) then jsToUpper level else "INFO"

/-- A row of the Logs table as `db.log` records it: message and normalised
level (the UUID and timestamp columns carry no information the claims
mention). -/
abbrev LogRow := String × String

/-- `status` of a catalog entry, from the spec's data model (§3). -/
inductive MediaStatus
  | active
  | missing
deriving DecidableEq

/-- Modelled from the spec: the catalog row (`MediaItem`, spec §3) that the
indexer is meant to maintain.  The committed code never constructs, reads or
mutates one — the hashing and upserting stages are absent from the source —
so the type exists here only so that theorems can speak about the catalog
state that `parse` threads through unchanged. -/
structure MediaItem where
  contentId : String
  mediaType : String
  currentPath : String
  status : MediaStatus
  firstSeen : Nat
  lastSeen : Nat
  userMetadata : String
deriving DecidableEq

/-- The filesystem as the librarian sees it: which paths
`fs.promises.access` resolves for, and the name strings
`fs.promises.readdir` yields for a directory. -/
structure FS where
  accessible : List String
  dirEntries : String → List String

/-- The keys of the librarian's `fuzzyNames` / `fileExtensions` tables
(librarian.js; the source spells the book key `books`). -/
inductive MediaKey
  | movie
  | music
  | books
  | photo
deriving DecidableEq

/-- The fixed keyword table `fuzzyNames` of librarian.js. -/
def fuzzyNames : MediaKey → List String
  | MediaKey.movie => ["movie", "video"]
  | MediaKey.music => ["music", "audio", "song"]
  | MediaKey.books => ["book", "documents", "epub", "pdf"]
  | MediaKey.photo => ["photo", "picture"]

/-- Whether the character list `sub` occurs at the start of `s`. -/
def leadsWith : List Char → List Char → Bool
  | [], _ => true
  | _ :: _, [] => false
  | a :: as, b :: bs => a == b && leadsWith as bs

/-- Whether the character list `sub` occurs anywhere inside `s`. -/
def occursIn (sub : List Char) : List Char → Bool
  | [] => sub.isEmpty
  | c :: rest => leadsWith sub (c :: rest) || occursIn sub rest

/-- JS `s.includes(sub)` on strings: substring containment. -/
def jsIncludes (s sub : String) : Bool :=
  occursIn sub.data s.data

/-- `fuzzyNames.<t>.some(fuzzyName => dirName.includes(fuzzyName))`
(librarian.js): does any keyword of type `t` occur in `dirName`?  The caller
passes the already lower-cased directory name, as the source does. -/
def dirNameMatches (t : MediaKey) (dirName : String) : Bool :=
  (fuzzyNames t).any (fun k => jsIncludes dirName k)

/-- The four `moviePath`/`musicPath`/`photoPath`/`bookPath` locals of
`parse` (librarian.js), `none` standing for JS `undefined` (falsy). -/
structure Assignments where
  moviePath : Option String := none
  musicPath : Option String := none
  photoPath : Option String := none
  bookPath : Option String := none
deriving DecidableEq

/-- `path.join(a, b)` for the separator-free segments the librarian joins. -/
def pathJoin (a b : String) : String := a ++ "/" ++ b

/-- The per-entry classification body of `parse` (librarian.js): if the entry
is a directory, lower-case its name and run the four independent conditional
assignments `if (fuzzyNames.<t>.some(...) && !<t>Path) <t>Path =
path.join(rootPath, dirName)`; each of the four locals is updated exactly
when its own keyword test succeeds and it is still unset.  A non-directory
entry changes nothing.  The interpretation of `file.isDirectory()` is passed
in by the caller because JS dispatches it dynamically: under the real
string-entry semantics it throws (see `jsIsDirectory` and `classifyLoop`);
the classification claims are settled under the directory-entry semantics
this function receives a boolean for. -/
def classifyStep (rootPath : String) (a : Assignments) (file : String)
    (isDir : Bool) : Assignments :=
  if isDir then
    let dirName := jsToLower file
    { moviePath :=
        if dirNameMatches MediaKey.movie dirName && a.moviePath.isNone
        then some (pathJoin rootPath dirName) else a.moviePath
      musicPath :=
        if dirNameMatches MediaKey.music dirName && a.musicPath.isNone
        then some (pathJoin rootPath dirName) else a.musicPath
      bookPath :=
        if dirNameMatches MediaKey.books dirName && a.bookPath.isNone
        then some (pathJoin rootPath dirName) else a.bookPath
      photoPath :=
        if dirNameMatches MediaKey.photo dirName && a.photoPath.isNone
        then some (pathJoin rootPath dirName) else a.photoPath }
  else a

/-- The message logged when the root path cannot be accessed
(librarian.js). -/
def msgUnable (rootPath : String) : String :=
  "[LIBRARIAN] Unable to access \"" ++ rootPath ++
    "\", new library will not be parsed."

/-- The message logged after the root directory listing is read
(librarian.js). -/
def msgLoaded (rootPath : String) : String :=
  "[LIBRARIAN] Loaded source directory \"" ++ rootPath ++ "\""

/-- The `rootContents.forEach(file => ...)` loop of `parse` (librarian.js)
under the real execution semantics: each entry is a plain string, and the
log-line template evaluates `file.isDirectory()` before anything else, so the
first entry throws.  On a throw the error carries the state accumulated so
far (assignments and log rows), which is what remains observable. -/
def classifyLoop (rootPath : String) (st : Assignments × List LogRow) :
    List String → Except (JsError × (Assignments × List LogRow)) (Assignments × List LogRow)
  | [] => Except.ok st
  | file :: rest =>
      match jsIsDirectory file with
      | Except.error e => Except.error (e, st)
      | Except.ok isDir =>
          let tag := if isDir then "(directory) " else ""
          let row : LogRow :=
            ("[LIBRARIAN] -- " ++ tag ++ pathJoin rootPath file, dbLogLevel none)
          classifyLoop rootPath
            (classifyStep rootPath st.1 file isDir, st.2 ++ [row]) rest

/-- One `Assuming <TYPE> directory is "<path>"` notification row, emitted only
when the corresponding path variable was assigned (librarian.js). -/
def optLog (label : String) : Option String → List LogRow
  | none => []
  | some p =>
      [("[LIBRARIAN] Assuming " ++ label ++ " directory is \"" ++ p ++ "\"",
        dbLogLevel none)]

/-- The four notification logs of `parse`, in source order
(MOVIE, MUSIC, PHOTO, BOOK). -/
def notifyLogs (a : Assignments) : List LogRow :=
  optLog "MOVIE" a.moviePath ++ optLog "MUSIC" a.musicPath ++
    optLog "PHOTO" a.photoPath ++ optLog "BOOK" a.bookPath

/-- One optional `mediaContents` entry: the readdir listing of an assigned
media directory (librarian.js). -/
def optDir (fs : FS) (ty : String) : Option String → List (String × List String)
  | none => []
  | some p => [(ty, fs.dirEntries p)]

/-- The `mediaContents` object of `parse`, in source order
(movie, music, photo, book). -/
def mediaContentsOf (fs : FS) (a : Assignments) : List (String × List String) :=
  optDir fs "movie" a.moviePath ++ optDir fs "music" a.musicPath ++
    optDir fs "photo" a.photoPath ++ optDir fs "book" a.bookPath

/-- The inner `mediaDirectory.forEach(item => ...)` of `parse`
(librarian.js): `item.isDirectory()` is called on a plain string and both
branches of the conditional are empty. -/
def mediaItemsLoop : List String → Except JsError Unit
  | [] => Except.ok ()
  | item :: rest =>
      match jsIsDirectory item with
      | Except.error e => Except.error e
      | Except.ok _ => mediaItemsLoop rest

/-- The outer `for (const [mediaType, mediaDirectory] of
Object.entries(mediaContents))` loop of `parse` (librarian.js). -/
def mediaLoop : List (String × List String) → Except JsError Unit
  | [] => Except.ok ()
  | (_ty, items) :: rest =>
      match mediaItemsLoop items with
      | Except.error e => Except.error e
      | Except.ok _ => mediaLoop rest

/-- Everything observable about one call of `parse`: the JS return value
(`Except.ok (some false)` for the explicit `return false`, `Except.ok none`
for falling off the end, `Except.error` for a thrown exception), the log rows
written through `db.log`, the final values of the four media-path locals, and
the catalog state threaded through the call. -/
structure ParseOutcome where
  result : Except JsError (Option Bool)
  logs : List LogRow
  assigns : Assignments
  catalog : List MediaItem

/-- The body of the scan entry point `parse(rootPath)` of librarian.js
(fuller revision): check `fs.promises.access`; on failure log one error row
and `return false`; otherwise read the root listing, log it, run the
classification `forEach` (which, over plain string entries, throws on the
first entry), then the notification logs, the `mediaContents` readdirs and
the media loops.  Yields the JS result, the log rows and the final path
assignments. -/
def parseCore (fs : FS) (rootPath : String) :
    Except JsError (Option Bool) × List LogRow × Assignments :=
  if fs.accessible.contains rootPath = true then
    let rootContents := fs.dirEntries rootPath
    let st0 : Assignments × List LogRow := ({}, [(msgLoaded rootPath, dbLogLevel none)])
    match classifyLoop rootPath st0 rootContents with
    | Except.error (e, st) => (Except.error e, st.2, st.1)
    | Except.ok st =>
        let logs1 := st.2 ++ notifyLogs st.1
        match mediaLoop (mediaContentsOf fs st.1) with
        | Except.error e => (Except.error e, logs1, st.1)
        | Except.ok _ => (Except.ok none, logs1, st.1)
  else
    (Except.ok (some false), [(msgUnable rootPath, dbLogLevel (some "error"))], {})

/-- `parse` with the catalog state threaded through the call: the source of
`parse` contains no catalog operation on any path (the upsert/hashing stages
were never written), so the catalog field of the outcome is the input
catalog, unconditionally. -/
def parse (fs : FS) (rootPath : String) (catalog : List MediaItem) : ParseOutcome :=
  { result := (parseCore fs rootPath).1
    logs := (parseCore fs rootPath).2.1
    assigns := (parseCore fs rootPath).2.2
    catalog := catalog }

theorem dbLogLevel_error : dbLogLevel (some "error") = "ERROR" := by decide

theorem parse_catalog_unchanged (fs : FS) (rootPath : String)
    (catalog : List MediaItem) : (parse fs rootPath catalog).catalog = catalog := rfl

/-- C1: scanning an inaccessible root logs exactly one row, that row is an
ERROR row, parse returns the failure indicator `false`, and the catalog after
the call is the catalog before it (zero catalog mutations). -/
theorem claim1_abort_safety (fs : FS) (rootPath : String) (catalog : List MediaItem)
    (h : fs.accessible.contains rootPath = false) :
    (parse fs rootPath catalog).result = Except.ok (some false)
    ∧ (parse fs rootPath catalog).logs = [(msgUnable rootPath, "ERROR")]
    ∧ (parse fs rootPath catalog).catalog = catalog := by
  have hcore : parseCore fs rootPath =
      (Except.ok (some false), [(msgUnable rootPath, dbLogLevel (some "error"))], {}) := by
    unfold parseCore
    rw [h]
    simp
  refine ⟨?_, ?_, rfl⟩
  · show (parseCore fs rootPath).1 = Except.ok (some false)
    rw [hcore]
  · show (parseCore fs rootPath).2.1 = [(msgUnable rootPath, "ERROR")]
    rw [hcore, dbLogLevel_error]

/-- Witness for C1 at a concrete inaccessible root. -/
theorem claim1_abort_safety_witness :
    (FS.mk [] (fun _ => [])).accessible.contains "/media" = false
    ∧ ((parse (FS.mk [] (fun _ => [])) "/media" []).result = Except.ok (some false)
       ∧ (parse (FS.mk [] (fun _ => [])) "/media" []).logs = [(msgUnable "/media", "ERROR")]
       ∧ (parse (FS.mk [] (fun _ => [])) "/media" []).catalog = []) :=
  ⟨rfl, claim1_abort_safety (FS.mk [] (fun _ => [])) "/media" [] rfl⟩

/-- C9: for every accessible root whose listing is non-empty, `parse` throws
a `TypeError` on the first entry of the classification loop (the log template
calls `.isDirectory()` on a plain readdir string), so the only log row
written is the "Loaded source directory" row, no media path local is ever
assigned, and the catalog is untouched. -/
theorem claim9_readdir_type_confusion (fs : FS) (rootPath : String)
    (catalog : List MediaItem)
    (hacc : fs.accessible.contains rootPath = true)
    (hne : fs.dirEntries rootPath ≠ []) :
    (parse fs rootPath catalog).result = Except.error JsError.typeError
    ∧ (parse fs rootPath catalog).assigns = {}
    ∧ (parse fs rootPath catalog).logs = [(msgLoaded rootPath, "INFO")]
    ∧ (parse fs rootPath catalog).catalog = catalog := by
  obtain ⟨e, rest, hsplit⟩ := List.exists_cons_of_ne_nil hne
  have hcore : parseCore fs rootPath =
      (Except.error JsError.typeError,
        [(msgLoaded rootPath, dbLogLevel none)], {}) := by
    unfold parseCore
    rw [hacc, hsplit]
    simp [classifyLoop, jsIsDirectory]
  refine ⟨?_, ?_, ?_, rfl⟩
  · show (parseCore fs rootPath).1 = Except.error JsError.typeError
    rw [hcore]
  · show (parseCore fs rootPath).2.2 = {}
    rw [hcore]
  · show (parseCore fs rootPath).2.1 = [(msgLoaded rootPath, "INFO")]
    rw [hcore]
    rfl

/-- A one-entry library root: `/lib` is accessible and holds a `Movies`
directory. -/
def fsOneEntry : FS :=
  { accessible := ["/lib"]
    dirEntries := fun p => if p == "/lib" then ["Movies"] else [] }

/-- Witness for C9 at the concrete root `/lib` containing `Movies`. -/
theorem claim9_readdir_type_confusion_witness :
    fsOneEntry.accessible.contains "/lib" = true
    ∧ fsOneEntry.dirEntries "/lib" ≠ []
    ∧ ((parse fsOneEntry "/lib" []).result = Except.error JsError.typeError
       ∧ (parse fsOneEntry "/lib" []).assigns = {}
       ∧ (parse fsOneEntry "/lib" []).logs = [(msgLoaded "/lib", "INFO")]
       ∧ (parse fsOneEntry "/lib" []).catalog = []) :=
  ⟨rfl, by decide, claim9_readdir_type_confusion fsOneEntry "/lib" [] rfl (by decide)⟩

/-- A library root whose `Movies` directory holds `a.mkv` and `b.mkv`; the
two files stand for byte-identical content (the embedding needs no byte
model because `parse` never opens a file or computes a hash). -/
def fsTwoIdentical : FS :=
  { accessible := ["/lib"]
    dirEntries := fun p =>
      if p == "/lib" then ["Movies"]
      else if p == "/lib/Movies" then ["a.mkv", "b.mkv"] else [] }

/-- C2: evaluation of the committed code at the failing input.  With two
byte-identical files `/lib/Movies/a.mkv` and `/lib/Movies/b.mkv`, the scan
throws a `TypeError` before reaching any hashing or catalog stage (neither of
which exists in the source), and the catalog afterwards holds no `MediaItem`
at all — zero items for every `contentId`, not exactly one — contradicting
the content-identity invariant that the librarian's own header comment
promises. -/
theorem claim2_content_identity_unimplemented :
    (parse fsTwoIdentical "/lib" []).result = Except.error JsError.typeError
    ∧ (parse fsTwoIdentical "/lib" []).catalog = [] := by
  constructor
  · show (parseCore fsTwoIdentical "/lib").1 = Except.error JsError.typeError
    rfl
  · rfl

/-- C4: scanning an unchanged tree twice yields a catalog identical to the
one after the first scan — the same set of `MediaItem`s with the same
`currentPath`, `status` and `userMetadata` (membership is preserved item for
item), and every item of a catalog built from scratch has `status = active`.
The property holds degenerately: `parse` performs no catalog mutation on any
path (hashing and upserting were never implemented), so both scans leave the
catalog exactly as they found it and the from-scratch catalog is empty. -/
theorem claim4_rescan_idempotent (fs : FS) (rootPath : String)
    (catalog : List MediaItem) :
    ((parse fs rootPath ((parse fs rootPath catalog).catalog)).catalog
        = (parse fs rootPath catalog).catalog)
    ∧ (∀ m : MediaItem,
        m ∈ (parse fs rootPath ((parse fs rootPath catalog).catalog)).catalog
          ↔ m ∈ (parse fs rootPath catalog).catalog)
    ∧ (∀ m ∈ (parse fs rootPath ([] : List MediaItem)).catalog,
        m.status = MediaStatus.active) := by
  refine ⟨rfl, fun m => Iff.rfl, fun m hm => ?_⟩
  rw [parse_catalog_unchanged] at hm
  exact absurd hm (List.not_mem_nil m)

/-- The classification `forEach` of `parse` (librarian.js, lines 91-102)
under directory-entry semantics: the entries are names paired with an
`isDirectory` answer given by the predicate `isDir`, processed in
directory-listing order starting from all four path locals unset.  This is
the semantics of the per-entry logic the classification claims are about;
the plain-string execution path that throws instead is `classifyLoop`. -/
def assignPaths (rootPath : String) (isDir : String → Bool)
    (entries : List String) : Assignments :=
  entries.foldl (fun a file => classifyStep rootPath a file (isDir file)) {}

/-- The media types whose keyword list matches a directory name after
lower-casing — the classification outcome for one name, which the source
computes with four independent conditionals and which can therefore contain
more than one type. -/
def matchingTypes (file : String) : List MediaKey :=
  [MediaKey.movie, MediaKey.music, MediaKey.books, MediaKey.photo].filter
    (fun t => dirNameMatches t (jsToLower file))

/-- The subtree root the spec says type `t` should get: the first directory
in listing order whose name matches `t`'s keyword set, joined to the root
(with the name lower-cased, as the source joins it). -/
def adoptedRoot (t : MediaKey) (rootPath : String) (isDir : String → Bool)
    (entries : List String) : Option String :=
  (entries.find? (fun file => isDir file && dirNameMatches t (jsToLower file))).map
    (fun file => pathJoin rootPath (jsToLower file))

theorem classifyStep_moviePath (rootPath : String) (a : Assignments)
    (file : String) (d : Bool) :
    (classifyStep rootPath a file d).moviePath =
      if d && dirNameMatches MediaKey.movie (jsToLower file) && a.moviePath.isNone
      then some (pathJoin rootPath (jsToLower file)) else a.moviePath := by
  cases d <;> simp [classifyStep]

theorem classifyStep_musicPath (rootPath : String) (a : Assignments)
    (file : String) (d : Bool) :
    (classifyStep rootPath a file d).musicPath =
      if d && dirNameMatches MediaKey.music (jsToLower file) && a.musicPath.isNone
      then some (pathJoin rootPath (jsToLower file)) else a.musicPath := by
  cases d <;> simp [classifyStep]

theorem classifyStep_bookPath (rootPath : String) (a : Assignments)
    (file : String) (d : Bool) :
    (classifyStep rootPath a file d).bookPath =
      if d && dirNameMatches MediaKey.books (jsToLower file) && a.bookPath.isNone
      then some (pathJoin rootPath (jsToLower file)) else a.bookPath := by
  cases d <;> simp [classifyStep]

theorem classifyStep_photoPath (rootPath : String) (a : Assignments)
    (file : String) (d : Bool) :
    (classifyStep rootPath a file d).photoPath =
      if d && dirNameMatches MediaKey.photo (jsToLower file) && a.photoPath.isNone
      then some (pathJoin rootPath (jsToLower file)) else a.photoPath := by
  cases d <;> simp [classifyStep]

/-- First-match-wins characterisation of the classification fold, generic in
the projection: if a component of the assignment record is updated exactly
when its own keyword test fires and it is still unset (hypothesis `hstep`),
then folding over the entries either keeps an already-set value or adopts
the first matching directory in listing order. -/
theorem foldAdopt (get : Assignments → Option String) (t : MediaKey)
    (rootPath : String) (isDir : String → Bool)
    (hstep : ∀ (a : Assignments) (file : String) (d : Bool),
      get (classifyStep rootPath a file d) =
        if d && dirNameMatches t (jsToLower file) && (get a).isNone
        then some (pathJoin rootPath (jsToLower file)) else get a) :
    ∀ (entries : List String) (a : Assignments),
      get (entries.foldl (fun a file => classifyStep rootPath a file (isDir file)) a) =
        match get a with
        | some p => some p
        | none =>
            (entries.find? (fun file => isDir file && dirNameMatches t (jsToLower file))).map
              (fun file => pathJoin rootPath (jsToLower file)) := by
  intro entries
  induction entries with
  | nil =>
      intro a
      cases h : get a <;> simp [h]
  | cons f rest ih =>
      intro a
      rw [List.foldl_cons, ih]
      cases hga : get a with
      | some p =>
          have h1 : get (classifyStep rootPath a f (isDir f)) = some p := by
            rw [hstep, hga]
            simp
          rw [h1]
      | none =>
          cases hp : isDir f && dirNameMatches t (jsToLower f) with
          | true =>
              have h1 : get (classifyStep rootPath a f (isDir f)) =
                  some (pathJoin rootPath (jsToLower f)) := by
                rw [hstep, hga]
                simp only [Option.isNone_none, Bool.and_true]
                rw [hp]
                simp
              simp [h1, List.find?_cons, hp]
          | false =>
              have h1 : get (classifyStep rootPath a f (isDir f)) = none := by
                rw [hstep, hga]
                simp only [Option.isNone_none, Bool.and_true]
                rw [hp]
                simp
              simp [h1, List.find?_cons, hp]

/-- C5 counterexample: the directory name `Movie Songs` matches both the
movie and the music keyword sets, so one directory name classifies to two
media types — and a scan over a listing containing it adopts the same
directory as subtree root for both types.  This refutes "maps every
directory name to zero or one media type". -/
theorem claim5_counterexample :
    matchingTypes "Movie Songs" = [MediaKey.movie, MediaKey.music]
    ∧ (assignPaths "/lib" (fun _ => true) ["Movie Songs"]).moviePath
        = some "/lib/movie songs"
    ∧ (assignPaths "/lib" (fun _ => true) ["Movie Songs"]).musicPath
        = some "/lib/movie songs" := by
  refine ⟨?_, ?_, ?_⟩ <;> rfl

/-- C5 (amended): for each media type, the adopted subtree root is exactly
the first directory in directory-listing order whose name matches that
type's keyword set, and all subsequent matching directories are ignored —
but one directory name may match (and be adopted for) several types, since
the four keyword tests are independent. -/
theorem claim5_first_match_adoption (rootPath : String) (isDir : String → Bool)
    (entries : List String) :
    (assignPaths rootPath isDir entries).moviePath
        = adoptedRoot MediaKey.movie rootPath isDir entries
    ∧ (assignPaths rootPath isDir entries).musicPath
        = adoptedRoot MediaKey.music rootPath isDir entries
    ∧ (assignPaths rootPath isDir entries).bookPath
        = adoptedRoot MediaKey.books rootPath isDir entries
    ∧ (assignPaths rootPath isDir entries).photoPath
        = adoptedRoot MediaKey.photo rootPath isDir entries := by
  refine ⟨?_, ?_, ?_, ?_⟩
  · rw [assignPaths,
      foldAdopt Assignments.moviePath MediaKey.movie rootPath isDir
        (fun a file d => classifyStep_moviePath rootPath a file d) entries {}]
    rfl
  · rw [assignPaths,
      foldAdopt Assignments.musicPath MediaKey.music rootPath isDir
        (fun a file d => classifyStep_musicPath rootPath a file d) entries {}]
    rfl
  · rw [assignPaths,
      foldAdopt Assignments.bookPath MediaKey.books rootPath isDir
        (fun a file d => classifyStep_bookPath rootPath a file d) entries {}]
    rfl
  · rw [assignPaths,
      foldAdopt Assignments.photoPath MediaKey.photo rootPath isDir
        (fun a file d => classifyStep_photoPath rootPath a file d) entries {}]
    rfl

/-- C6: directory classification is decided by case-insensitive (lower-cased
name) substring matching against the fixed keyword table movie = {movie,
video}, music = {music, audio, song}, book = {book, documents, epub, pdf},
photo = {photo, picture}; a directory whose name matches no keyword of any
type leaves every path assignment unchanged (it is skipped, which is not an
error — the step is a total function), as does a non-directory entry. -/
theorem claim6_keyword_table (file rootPath : String) (a : Assignments) :
    (dirNameMatches MediaKey.movie (jsToLower file)
        = (jsIncludes (jsToLower file) "movie" || jsIncludes (jsToLower file) "video"))
    ∧ (dirNameMatches MediaKey.music (jsToLower file)
        = (jsIncludes (jsToLower file) "music" || jsIncludes (jsToLower file) "audio"
            || jsIncludes (jsToLower file) "song"))
    ∧ (dirNameMatches MediaKey.books (jsToLower file)
        = (jsIncludes (jsToLower file) "book" || jsIncludes (jsToLower file) "documents"
            || jsIncludes (jsToLower file) "epub" || jsIncludes (jsToLower file) "pdf"))
    ∧ (dirNameMatches MediaKey.photo (jsToLower file)
        = (jsIncludes (jsToLower file) "photo" || jsIncludes (jsToLower file) "picture"))
    ∧ ((classifyStep rootPath a file true).moviePath =
        if dirNameMatches MediaKey.movie (jsToLower file) && a.moviePath.isNone
        then some (pathJoin rootPath (jsToLower file)) else a.moviePath)
    ∧ ((classifyStep rootPath a file true).musicPath =
        if dirNameMatches MediaKey.music (jsToLower file) && a.musicPath.isNone
        then some (pathJoin rootPath (jsToLower file)) else a.musicPath)
    ∧ ((classifyStep rootPath a file true).bookPath =
        if dirNameMatches MediaKey.books (jsToLower file) && a.bookPath.isNone
        then some (pathJoin rootPath (jsToLower file)) else a.bookPath)
    ∧ ((classifyStep rootPath a file true).photoPath =
        if dirNameMatches MediaKey.photo (jsToLower file) && a.photoPath.isNone
        then some (pathJoin rootPath (jsToLower file)) else a.photoPath)
    ∧ classifyStep rootPath a file false = a := by
  refine ⟨?_, ?_, ?_, ?_, ?_, ?_, ?_, ?_, ?_⟩
  · simp [dirNameMatches, fuzzyNames]
  · simp [dirNameMatches, fuzzyNames, Bool.or_assoc]
  · simp [dirNameMatches, fuzzyNames, Bool.or_assoc]
  · simp [dirNameMatches, fuzzyNames]
  · exact classifyStep_moviePath rootPath a file true
  · exact classifyStep_musicPath rootPath a file true
  · exact classifyStep_bookPath rootPath a file true
  · exact classifyStep_photoPath rootPath a file true
  · rfl

/-- The process environment as main.js reads it: the `LIBRARY_ROOT`
variable, `none` standing for an unset variable. -/
structure Env where
  LIBRARY_ROOT : Option String
deriving DecidableEq

/-- What a scheduler tick can do. -/
inductive TickAction
  | invokeParse (rootArg : Option String)
  | dropAndLog
deriving DecidableEq

/-- The callback registered by `cron.schedule('0 */30 * * * *', () =>
{ librarian.parse(process.env.LIBRARY_ROOT) })` in main.js: it starts a parse
unconditionally.  It closes over nothing but the environment — the program
keeps no in-progress flag and the callback consults no state, so the action
is the same whether or not a run is active. -/
def cronTickCallback (env : Env) (_scanInProgress : Bool) : TickAction :=
  TickAction.invokeParse env.LIBRARY_ROOT

/-- Events the scheduler timeline can contain: a cron tick, or the
completion of a previously started parse run. -/
inductive SchedEvent
  | tick
  | parseDone
deriving DecidableEq

/-- Effect of one scheduler event on the number of simultaneously active
parse runs: a tick runs the registered callback (which, being unconditional,
starts one more run); a completion retires one run. -/
def schedStep (env : Env) (active : Nat) : SchedEvent → Nat
  | SchedEvent.tick =>
      match cronTickCallback env (decide (0 < active)) with
      | TickAction.invokeParse _ => active + 1
      | TickAction.dropAndLog => active
  | SchedEvent.parseDone => active - 1

/-- Number of parse runs active after a timeline of scheduler events. -/
def activeRunsAfter (env : Env) (events : List SchedEvent) : Nat :=
  events.foldl (schedStep env) 0

/-- C3 counterexample: a second tick arriving while the run started by the
first tick is still in progress is not dropped — the callback invokes parse
again (it is not `dropAndLog` even when a scan is in progress), and after two
ticks with no completion two runs are active at once, refuting "at most one
scan run is ever active" and "the tick is dropped ... and logged". -/
theorem claim3_counterexample :
    activeRunsAfter (Env.mk (some "/media")) [SchedEvent.tick, SchedEvent.tick] = 2
    ∧ cronTickCallback (Env.mk (some "/media")) true ≠ TickAction.dropAndLog := by
  exact ⟨rfl, by decide⟩

/-- C3 (amended): no single-flight mechanism exists.  The scheduled callback
invokes `librarian.parse` unconditionally whether or not a run is in
progress; nothing is dropped, logged or recorded, and `n` ticks with no
intervening completions leave `n` runs simultaneously active. -/
theorem claim3_no_single_flight (env : Env) (running : Bool) (n : Nat) :
    cronTickCallback env running = TickAction.invokeParse env.LIBRARY_ROOT
    ∧ activeRunsAfter env (List.replicate n SchedEvent.tick) = n := by
  refine ⟨rfl, ?_⟩
  have key : ∀ (m k : Nat),
      (List.replicate m SchedEvent.tick).foldl (schedStep env) k = k + m := by
    intro m
    induction m with
    | zero => intro k; rfl
    | succ m ih =>
        intro k
        rw [List.replicate_succ, List.foldl_cons, ih]
        show k + 1 + m = k + (m + 1)
        omega
  show (List.replicate n SchedEvent.tick).foldl (schedStep env) 0 = n
  rw [key]
  omega

/-- The `console.error` message of `prepare` (main.js) for a missing library
root, with the source's own spelling. -/
def libraryRootMissingMsg : String :=
  "The library root (LIBRARY_ROOT) is not defined in the configuration file, no libary will be built. Please fix ./config.env"

/-- Everything observable about one call of `prepare` (main.js): whether the
default tables were created, the `console.error` output, the root `parse` was
invoked with (if it was), whether the half-hourly cron job was registered,
and whether the hosting process was terminated (no path of `prepare` ever
terminates it). -/
structure PrepareOutcome where
  createdDefaults : Bool
  consoleErrors : List String
  parseCalledWith : Option String
  cronScheduled : Bool
  processTerminated : Bool
deriving DecidableEq

/-- The startup function `prepare` of main.js: create default tables; if
`process.env.LIBRARY_ROOT` is falsy, `console.error` the message and return
(no parse, no cron registration, no process exit); otherwise parse the root
and register the cron rescan. -/
def prepare (env : Env) : PrepareOutcome :=
  if jsTruthy env.LIBRARY_ROOT then
    { createdDefaults := true
      consoleErrors := []
      parseCalledWith := env.LIBRARY_ROOT
      cronScheduled := true
      processTerminated := false }
  else
    { createdDefaults := true
      consoleErrors := [libraryRootMissingMsg]
      parseCalledWith := none
      cronScheduled := false
      processTerminated := false }

/-- C7: with no configured library root (unset, or empty hence falsy),
`prepare` does not scan — it logs the absence once, builds no library
(neither the initial parse nor the cron rescan happens) and returns without
terminating the hosting process. -/
theorem claim7_missing_root_not_fatal (env : Env)
    (h : jsTruthy env.LIBRARY_ROOT = false) :
    (prepare env).parseCalledWith = none
    ∧ (prepare env).consoleErrors = [libraryRootMissingMsg]
    ∧ (prepare env).cronScheduled = false
    ∧ (prepare env).processTerminated = false := by
  unfold prepare
  rw [h]
  exact ⟨rfl, rfl, rfl, rfl⟩

/-- Witness for C7 with `LIBRARY_ROOT` unset. -/
theorem claim7_missing_root_not_fatal_witness :
    jsTruthy (Env.mk none).LIBRARY_ROOT = false
    ∧ ((prepare (Env.mk none)).parseCalledWith = none
       ∧ (prepare (Env.mk none)).consoleErrors = [libraryRootMissingMsg]
       ∧ (prepare (Env.mk none)).cronScheduled = false
       ∧ (prepare (Env.mk none)).processTerminated = false) :=
  ⟨rfl, claim7_missing_root_not_fatal (Env.mk none) rfl⟩

/-- The value a settings row parses to, recorded symbolically as the JS
conversion last assigned to `parsedValue` in `db.getSettings` (db.js):
`String(...)`, `parseInt(...)`, `new Date(...)` or `JSON.parse(...)` applied
to the stored `Value` text, or still `undefined` when no case matched. -/
inductive SettingValue
  | undef
  | jsStringOf (v : String)
  | parseIntOf (v : String)
  | newDateOf (v : String)
  | jsonParseOf (v : String)
deriving DecidableEq

/-- The case list of the `switch (setting.Type)` in `db.getSettings`
(db.js), in source order, each paired with the conversion its body assigns. -/
def settingsSwitchCases : List (String × (String → SettingValue)) :=
  [("string", SettingValue.jsStringOf),
   ("number", SettingValue.parseIntOf),
   ("date", SettingValue.newDateOf),
   ("object", SettingValue.jsonParseOf)]

/-- JS `switch` semantics for a case list with no `break` statements and no
`default`: walk the cases in order; once a label has matched (`matched`),
every later case body also executes, each overwriting `parsedValue` (`acc`);
the value after the switch is the last assignment executed. -/
def runSwitchNoBreak :
    List (String × (String → SettingValue)) → String → String → Bool →
      SettingValue → SettingValue
  | [], _, _, _, acc => acc
  | (label, body) :: rest, ty, value, matched, acc =>
      let m := matched || (ty == label)
      runSwitchNoBreak rest ty value m (if m then body value else acc)

/-- The `parsedValue` that one Settings row of Type `ty` and Value `value`
ends up with in `db.getSettings` (db.js). -/
def getSettingsParsedValue (ty value : String) : SettingValue :=
  runSwitchNoBreak settingsSwitchCases ty value false SettingValue.undef

/-- C8: the settings-value switch has no fall-through guards, so for every
row whose Type matches one of the cases string, number, date or object,
execution falls through all subsequent cases and the final parsed value is
the one produced by the last executed case — `JSON.parse` of the stored
value — not the conversion of the matched case alone. -/
theorem claim8_switch_fallthrough (ty value : String)
    (h : ty ∈ ["string", "number", "date", "object"]) :
    getSettingsParsedValue ty value = SettingValue.jsonParseOf value := by
  simp only [List.mem_cons, List.not_mem_nil, or_false] at h
  rcases h with rfl | rfl | rfl | rfl <;> rfl

/-- Witness for C8 on the shipped default row
`('LISTEN_PORT', '3080', 'number')`. -/
theorem claim8_switch_fallthrough_witness :
    "number" ∈ ["string", "number", "date", "object"]
    ∧ getSettingsParsedValue "number" "3080" = SettingValue.jsonParseOf "3080" :=
  ⟨by decide, claim8_switch_fallthrough "number" "3080" (by decide)⟩

/-- A row of the Users table as `db.user.authenticate` consumes it; the only
field the function touches is the stored password hash, whose column is
spelled `Password`. -/
structure Account where
  Password : String
deriving DecidableEq

/-- JS property access on an account row: only the correctly spelled
`Password` column exists; any other property name — in particular the
`Passowrd` the source actually reads — yields `undefined`. -/
def accountField (a : Account) (field : String) : Option String :=
  if field == "Password" then some a.Password else none

/-- Outcome of the external `bcrypt.compare(password, hash, cb)` call: the
callback receives either an error or a boolean match result. -/
inductive BcryptOutcome
  | err
  | ok (res : Bool)
deriving DecidableEq

/-- `comparePassword` of db.js: the promise rejects when the bcrypt callback
reports an error and resolves `true` otherwise — the boolean match result
`res` is never consulted. -/
def comparePassword (bcryptCompare : String → Option String → BcryptOutcome)
    (password : String) (hashed : Option String) : Except Bool Bool :=
  match bcryptCompare password hashed with
  | BcryptOutcome.err => Except.error false
  | BcryptOutcome.ok _ => Except.ok true

/-- `db.user.authenticate` of db.js: select the accounts matching the
username; unless exactly one row comes back, reject with code 1 (a later
`resolve` is ignored once the promise has settled); otherwise compare the
password against the row's `Passowrd` property and resolve 0 unless the
comparison rejected, in which case reject with code 2. -/
def authenticate (accountsFor : String → List Account)
    (bcryptCompare : String → Option String → BcryptOutcome)
    (username password : String) : Except Nat Nat :=
  match accountsFor username with
  | [account] =>
      match comparePassword bcryptCompare password (accountField account "Passowrd") with
      | Except.error _ => Except.error 2
      | Except.ok _ => Except.ok 0
  | _ => Except.error 1

/-- C10: authentication does not depend on the password.  For any username
matching exactly one account and any two passwords for which the bcrypt
comparison does not error, `authenticate` resolves with success code 0 for
both, because `comparePassword` resolves `true` whenever the callback
reports no error, ignoring the boolean match result. -/
theorem claim10_password_ignored (accountsFor : String → List Account)
    (bcryptCompare : String → Option String → BcryptOutcome)
    (username p1 p2 : String) (acct : Account)
    (hacct : accountsFor username = [acct])
    (h1 : bcryptCompare p1 (accountField acct "Passowrd") ≠ BcryptOutcome.err)
    (h2 : bcryptCompare p2 (accountField acct "Passowrd") ≠ BcryptOutcome.err) :
    authenticate accountsFor bcryptCompare username p1 = Except.ok 0
    ∧ authenticate accountsFor bcryptCompare username p2 = Except.ok 0 := by
  constructor
  · cases hb : bcryptCompare p1 (accountField acct "Passowrd") with
    | err => exact absurd hb h1
    | ok b => simp [authenticate, hacct, comparePassword, hb]
  · cases hb : bcryptCompare p2 (accountField acct "Passowrd") with
    | err => exact absurd hb h2
    | ok b => simp [authenticate, hacct, comparePassword, hb]

/-- Witness for C10: a bcrypt oracle that reports a failed match for every
password still yields success code 0 for both the correct password and a
wrong one. -/
theorem claim10_password_ignored_witness :
    (fun _ : String => [Account.mk "storedhash"]) "admin" = [Account.mk "storedhash"]
    ∧ (fun _ : String => fun _ : Option String => BcryptOutcome.ok false) "admin"
        (accountField (Account.mk "storedhash") "Passowrd") ≠ BcryptOutcome.err
    ∧ (fun _ : String => fun _ : Option String => BcryptOutcome.ok false) "letmein"
        (accountField (Account.mk "storedhash") "Passowrd") ≠ BcryptOutcome.err
    ∧ (authenticate (fun _ => [Account.mk "storedhash"])
          (fun _ _ => BcryptOutcome.ok false) "admin" "admin" = Except.ok 0
       ∧ authenticate (fun _ => [Account.mk "storedhash"])
          (fun _ _ => BcryptOutcome.ok false) "admin" "letmein" = Except.ok 0) :=
  ⟨rfl, by decide, by decide,
    claim10_password_ignored (fun _ => [Account.mk "storedhash"])
      (fun _ _ => BcryptOutcome.ok false) "admin" "admin" "letmein"
      (Account.mk "storedhash") rfl (by decide) (by decide)⟩

end Nelfe
